import Mathlib

/-!
Verification of the `enfl` configuration-loading library (islamghany/enfl,
`enfl.go`) against its natural-language specification.

The Go source is shallowly embedded below.  Strings are Lean `String`s;
the string operations the source uses (`strings.Split`, `TrimSpace`,
`ToUpper`, `ReplaceAll`, ...) are re-implemented structurally over
`List Char` so that every definition evaluates inside the kernel.  The
inputs of interest are ASCII, where Go's byte-level indexing and Unicode
case mapping coincide with these character-level operations.  Machine
integers are modelled as `Int`/`Nat` with explicit `% 2 ^ w` truncation
where Go converts between widths (`reflect.Value.SetInt/SetUint`).  The
process environment and the `flag` package's flag set are threaded
explicitly as association lists; file contents are lists of lines.
`float32`/`float64`, `time.Duration` and `time.Time` fields are outside
the model: no claim mentions them, and they would only add IEEE parsing
and the duration grammar, orthogonal to every claim below.
-/

namespace Enfl

/-! ## Go standard-library string primitives -/

/-- `unicode.IsSpace`: the Unicode White_Space code points. -/
def goIsSpace (c : Char) : Bool :=
  c.val = 0x09 ∨ c.val = 0x0a ∨ c.val = 0x0b ∨ c.val = 0x0c ∨ c.val = 0x0d ∨
  c.val = 0x20 ∨ c.val = 0x85 ∨ c.val = 0xa0 ∨ c.val = 0x1680 ∨
  (0x2000 ≤ c.val ∧ c.val ≤ 0x200a) ∨ c.val = 0x2028 ∨ c.val = 0x2029 ∨
  c.val = 0x202f ∨ c.val = 0x205f ∨ c.val = 0x3000

/-- `strings.TrimSpace`. -/
def goTrimSpace (s : String) : String :=
  String.mk (((s.data.dropWhile goIsSpace).reverse.dropWhile goIsSpace).reverse)

/-- ASCII lower-casing of one character (Go `strings.ToLower` restricted
to ASCII, which is all the source's inputs use). -/
def lowerChar (c : Char) : Char :=
  if 'A' ≤ c ∧ c ≤ 'Z' then Char.ofNat (c.toNat + 32) else c

/-- ASCII upper-casing of one character. -/
def upperChar (c : Char) : Char :=
  if 'a' ≤ c ∧ c ≤ 'z' then Char.ofNat (c.toNat - 32) else c

/-- `strings.ToLower` (ASCII fragment). -/
def goToLower (s : String) : String := String.mk (s.data.map lowerChar)

/-- `strings.ToUpper` (ASCII fragment). -/
def goToUpper (s : String) : String := String.mk (s.data.map upperChar)

/-- Splitting a character list at every occurrence of `sep`. -/
def splitCharList (sep : Char) : List Char → List (List Char)
  | [] => [[]]
  | c :: cs =>
    if c = sep then [] :: splitCharList sep cs
    else
      match splitCharList sep cs with
      | [] => [[c]]
      | g :: gs => (c :: g) :: gs

/-- `strings.Split(s, sep)` for a one-character separator (the source
only ever splits on `","`). -/
def goSplit (s : String) (sep : Char) : List String :=
  (splitCharList sep s.data).map String.mk

/-- The part of a list before the first occurrence of `sep`, and the part
after it; `none` when `sep` does not occur. -/
def breakAt (sep : Char) : List Char → Option (List Char × List Char)
  | [] => none
  | c :: cs =>
    if c = sep then some ([], cs)
    else (breakAt sep cs).map (fun p => (c :: p.1, p.2))

/-- `strings.SplitN(line, "=", 2)`: the part before the first `=` and the
rest; `none` when the line holds no `=` (Go then returns a single part,
which the caller treats as the malformed-line case). -/
def splitFirstEq (line : String) : Option (String × String) :=
  (breakAt '=' line.data).map (fun p => (String.mk p.1, String.mk p.2))

/-- `strings.HasPrefix(s, "#")` (one-character pattern). -/
def startsWithChar (s : String) (c : Char) : Bool :=
  match s.data with
  | [] => false
  | d :: _ => d = c

/-- One pass of `strings.ReplaceAll` for a two-character pattern
`[a, b]` replaced by the single character `r`: left-to-right,
non-overlapping, exactly as Go's `Replace` with `n < 0` scans.  All five
patterns `unquoteValue` replaces have two characters. -/
def replace2 (a b r : Char) : List Char → List Char
  | [] => []
  | [c] => [c]
  | c :: d :: cs =>
    if c = a ∧ d = b then r :: replace2 a b r cs
    else c :: replace2 a b r (d :: cs)

/-- Decimal digit accumulation used by `strconv` parsing. -/
def parseDigitsAux (acc : Nat) : List Char → Option Nat
  | [] => some acc
  | c :: cs =>
    if '0' ≤ c ∧ c ≤ '9' then parseDigitsAux (acc * 10 + (c.toNat - '0'.toNat)) cs
    else none

/-- A non-empty all-digit string parsed as a natural number. -/
def parseDigits (cs : List Char) : Option Nat :=
  if cs.isEmpty then none else parseDigitsAux 0 cs

/-- `strconv.ParseInt(s, 10, 64)` (also `strconv.Atoi` modulo the error
text, which the source discards at every `Atoi` call site). -/
def goParseInt64 (s : String) : Except String Int :=
  match s.data with
  | [] => .error ("strconv.ParseInt: parsing \"" ++ s ++ "\": invalid syntax")
  | c :: cs =>
    let sd : Bool × List Char :=
      if c = '-' then (true, cs) else if c = '+' then (false, cs) else (false, c :: cs)
    match parseDigits sd.2 with
    | none => .error ("strconv.ParseInt: parsing \"" ++ s ++ "\": invalid syntax")
    | some n =>
      let v : Int := if sd.1 then -(n : Int) else (n : Int)
      if v < -(2 ^ 63) ∨ v > 2 ^ 63 - 1 then
        .error ("strconv.ParseInt: parsing \"" ++ s ++ "\": value out of range")
      else .ok v

/-- `strconv.ParseUint(s, 10, 64)`; sign characters are not permitted. -/
def goParseUint64 (s : String) : Except String Nat :=
  match parseDigits s.data with
  | none => .error ("strconv.ParseUint: parsing \"" ++ s ++ "\": invalid syntax")
  | some n =>
    if n > 2 ^ 64 - 1 then
      .error ("strconv.ParseUint: parsing \"" ++ s ++ "\": value out of range")
    else .ok n

/-- `strconv.ParseBool`. -/
def goParseBool (s : String) : Except String Bool :=
  if s = "1" ∨ s = "t" ∨ s = "T" ∨ s = "TRUE" ∨ s = "true" ∨ s = "True" then .ok true
  else if s = "0" ∨ s = "f" ∨ s = "F" ∨ s = "FALSE" ∨ s = "false" ∨ s = "False" then .ok false
  else .error ("strconv.ParseBool: parsing \"" ++ s ++ "\": invalid syntax")

/-! ## enfl utility functions (`toSnakeCase`, `toKebabCase`) -/

/-- Character stream of `toSnakeCase`'s loop: an underscore is written
before every upper-case ASCII letter that is not at index 0. -/
def snakeChars : Nat → List Char → List Char
  | _, [] => []
  | i, r :: rest =>
    (if i > 0 ∧ 'A' ≤ r ∧ r ≤ 'Z' then ['_', r] else [r]) ++ snakeChars (i + 1) rest

def toSnakeCase (s : String) : String :=
  goToLower (String.mk (snakeChars 0 s.data))

def toKebabCase (s : String) : String :=
  String.mk ((toSnakeCase s).data.map (fun c => if c = '_' then '-' else c))

end Enfl


namespace Enfl

/-! ## Data model: field kinds and machine values

`reflect.Kind` restricted to the kinds the claims exercise.  Go's `int`
and `uint` are 64 bits wide on the platforms the library targets. -/

inductive SIntW
  | iW | i8 | i16 | i32 | i64
  deriving Repr, DecidableEq

inductive UIntW
  | uW | u8 | u16 | u32 | u64
  deriving Repr, DecidableEq

def SIntW.bits : SIntW → Nat
  | .iW => 64
  | .i8 => 8
  | .i16 => 16
  | .i32 => 32
  | .i64 => 64

def UIntW.bits : UIntW → Nat
  | .uW => 64
  | .u8 => 8
  | .u16 => 16
  | .u32 => 32
  | .u64 => 64

/-- A slice element's kind: any non-sequence member of the modelled
kind set. -/
inductive ElemKind
  | eString
  | eInt (w : SIntW)
  | eUint (w : UIntW)
  | eBool
  deriving Repr, DecidableEq

inductive Kind
  | kString
  | kInt (w : SIntW)
  | kUint (w : UIntW)
  | kBool
  | kSlice (elem : ElemKind)
  deriving Repr, DecidableEq

/-- The `reflect.Kind` of a slice element. -/
def ElemKind.toKind : ElemKind → Kind
  | .eString => .kString
  | .eInt w => .kInt w
  | .eUint w => .kUint w
  | .eBool => .kBool


/-- The string `reflect.Kind.String()` prints in error messages. -/
def SIntW.goName : SIntW → String
  | .iW => "int"
  | .i8 => "int8"
  | .i16 => "int16"
  | .i32 => "int32"
  | .i64 => "int64"

def UIntW.goName : UIntW → String
  | .uW => "uint"
  | .u8 => "uint8"
  | .u16 => "uint16"
  | .u32 => "uint32"
  | .u64 => "uint64"

def Kind.goName : Kind → String
  | .kString => "string"
  | .kInt w => w.goName
  | .kUint w => w.goName
  | .kBool => "bool"
  | .kSlice _ => "slice"

/-- A Go value of one of the modelled kinds. -/
inductive Value
  | vStr (s : String)
  | vInt (i : Int)
  | vUint (n : Nat)
  | vBool (b : Bool)
  | vSlice (elems : List Value)
  deriving Repr

mutual

/-- Decidable equality of `Value` (the default deriving handler does not
support the nested `List Value`). -/
def valueDecEq : (a b : Value) → Decidable (a = b)
  | .vStr a, .vStr b =>
    match decEq a b with
    | .isTrue h => .isTrue (by rw [h])
    | .isFalse h => .isFalse (fun he => h (Value.vStr.inj he))
  | .vInt a, .vInt b =>
    match decEq a b with
    | .isTrue h => .isTrue (by rw [h])
    | .isFalse h => .isFalse (fun he => h (Value.vInt.inj he))
  | .vUint a, .vUint b =>
    match decEq a b with
    | .isTrue h => .isTrue (by rw [h])
    | .isFalse h => .isFalse (fun he => h (Value.vUint.inj he))
  | .vBool a, .vBool b =>
    match decEq a b with
    | .isTrue h => .isTrue (by rw [h])
    | .isFalse h => .isFalse (fun he => h (Value.vBool.inj he))
  | .vSlice a, .vSlice b =>
    match valueListDecEq a b with
    | .isTrue h => .isTrue (by rw [h])
    | .isFalse h => .isFalse (fun he => h (Value.vSlice.inj he))
  | .vStr _, .vInt _ => .isFalse nofun
  | .vStr _, .vUint _ => .isFalse nofun
  | .vStr _, .vBool _ => .isFalse nofun
  | .vStr _, .vSlice _ => .isFalse nofun
  | .vInt _, .vStr _ => .isFalse nofun
  | .vInt _, .vUint _ => .isFalse nofun
  | .vInt _, .vBool _ => .isFalse nofun
  | .vInt _, .vSlice _ => .isFalse nofun
  | .vUint _, .vStr _ => .isFalse nofun
  | .vUint _, .vInt _ => .isFalse nofun
  | .vUint _, .vBool _ => .isFalse nofun
  | .vUint _, .vSlice _ => .isFalse nofun
  | .vBool _, .vStr _ => .isFalse nofun
  | .vBool _, .vInt _ => .isFalse nofun
  | .vBool _, .vUint _ => .isFalse nofun
  | .vBool _, .vSlice _ => .isFalse nofun
  | .vSlice _, .vStr _ => .isFalse nofun
  | .vSlice _, .vInt _ => .isFalse nofun
  | .vSlice _, .vUint _ => .isFalse nofun
  | .vSlice _, .vBool _ => .isFalse nofun

def valueListDecEq : (a b : List Value) → Decidable (a = b)
  | [], [] => .isTrue rfl
  | [], _ :: _ => .isFalse nofun
  | _ :: _, [] => .isFalse nofun
  | a :: as, b :: bs =>
    match valueDecEq a b, valueListDecEq as bs with
    | .isTrue h1, .isTrue h2 => .isTrue (by rw [h1, h2])
    | .isFalse h1, _ => .isFalse (fun he => h1 (List.cons.inj he).1)
    | _, .isFalse h2 => .isFalse (fun he => h2 (List.cons.inj he).2)

end

instance : DecidableEq Value := valueDecEq

/-- Go's conversion `intN(x)` from `int64`: two's-complement truncation
to `bits` bits, which is what `reflect.Value.SetInt` performs when the
destination field is narrower than 64 bits. -/
def truncSigned (bits : Nat) (x : Int) : Int :=
  let m := x % (2 ^ bits : Int)
  if m < 2 ^ (bits - 1) then m else m - 2 ^ bits

/-- The zero value a freshly made element of `reflect.MakeSlice` holds. -/
def zeroValue : Kind → Value
  | .kString => .vStr ""
  | .kInt _ => .vInt 0
  | .kUint _ => .vUint 0
  | .kBool => .vBool false
  | .kSlice _ => .vSlice []

/-! ## Process environment and flag set -/

/-- The ambient environment namespace, as an association list (first
binding of a key wins on lookup). -/
abbrev EnvMap := List (String × String)

def envLookup (env : EnvMap) (k : String) : Option String :=
  (env.find? (fun p => p.1 = k)).map (fun p => p.2)

/-- `os.Getenv`: the empty string when the variable is unset. -/
def osGetenv (env : EnvMap) (k : String) : String :=
  (envLookup env k).getD ""

/-- The `exists` result of `os.LookupEnv`. -/
def osLookupEnvExists (env : EnvMap) (k : String) : Bool :=
  (envLookup env k).isSome

/-- `os.Setenv` (overwrite if present, append otherwise). -/
def osSetenv (env : EnvMap) (k v : String) : EnvMap :=
  if (envLookup env k).isSome then
    env.map (fun p => if p.1 = k then (k, v) else p)
  else env ++ [(k, v)]

/-- The typed state one registered flag carries.  `flag.Lookup(...).Value.String()`
renders it back to a string; before `flag.Parse` runs (or when the flag
was not supplied on the command line) it still holds the registered
default, so that rendering is never "absent". -/
inductive FlagVal
  | fStr (s : String)
  | fInt (i : Int)
  | fUint (n : Nat)
  | fBool (b : Bool)
  deriving Repr, DecidableEq

/-- `flag.Value.String()`. -/
def FlagVal.render : FlagVal → String
  | .fStr s => s
  | .fInt i => toString i
  | .fUint n => toString n
  | .fBool b => if b then "true" else "false"

/-- The flag set, as an association list in registration order. -/
abbrev FlagSet := List (String × FlagVal)

/-- `flagSet.Lookup`. -/
def flagLookup (fs : FlagSet) (n : String) : Option FlagVal :=
  (fs.find? (fun p => p.1 = n)).map (fun p => p.2)

/-- `flag.Value.Set` as invoked by `flag.Parse` for one `-name=raw`
argument: the raw string is parsed according to the flag's type.  (On a
malformed value the real `flag.Parse` aborts the program; no claim
involves that path, and the model leaves the flag unchanged there.) -/
def flagParseRaw : FlagVal → String → Option FlagVal
  | .fStr _, raw => some (.fStr raw)
  | .fInt _, raw => (goParseInt64 raw).toOption.map .fInt
  | .fUint _, raw => (goParseUint64 raw).toOption.map .fUint
  | .fBool _, raw => (goParseBool raw).toOption.map .fBool

/-- Supplying `-n=raw` on the command line. -/
def flagSetSupply (fs : FlagSet) (n raw : String) : FlagSet :=
  fs.map (fun p => if p.1 = n then (n, (flagParseRaw p.2 raw).getD p.2) else p)

/-! ## Field metadata and loader configuration -/

/-- One `reflect.StructField`: its Go identifier and the struct tags the
source reads (`Tag.Get` returns `""` for an absent tag). -/
structure FieldMeta where
  name : String
  envTag : String := ""
  flagTag : String := ""
  defaultTag : String := ""
  usageTag : String := ""
  descriptionTag : String := ""
  requiredTag : String := ""
  prefixTag : String := ""
  deriving Repr, DecidableEq

/-- The `Loader` struct.  Its `flagSet` member is not stored here: the
flag set is threaded explicitly through the functions below, and
`WithFlagSet` only chooses which store backs it. -/
structure Loader where
  envPrefix : String := ""
  failOnError : Bool := false
  envFiles : List String := []
  autoLoadEnv : Bool := false
  deriving Repr, DecidableEq

def LoaderOption := Loader → Loader

def WithEnvPrefix (p : String) : LoaderOption := fun l => { l with envPrefix := p }

def WithFailOnError (b : Bool) : LoaderOption := fun l => { l with failOnError := b }

def WithEnvFiles (files : List String) : LoaderOption := fun l => { l with envFiles := files }

def WithAutoLoadEnv (b : Bool) : LoaderOption := fun l => { l with autoLoadEnv := b }

/-- `NewLoader`: defaults (fail fast, auto-load conventional env files),
then the options applied in order. -/
def NewLoader (opts : List LoaderOption) : Loader :=
  opts.foldl (fun l o => o l) { failOnError := true, autoLoadEnv := true }

/-! ## Name derivation (`getEnvKey`, `getFlagName`, `getNestedPrefix`) -/

/-- The composition step inside `getEnvKey`'s loop: trim the candidate,
prepend the accumulated nested prefix, then the loader's global prefix. -/
def composeEnvName (l : Loader) (pfx nm : String) : String :=
  let nm := goTrimSpace nm
  let nm := if pfx ≠ "" then pfx ++ nm else nm
  if l.envPrefix ≠ "" then l.envPrefix ++ nm else nm

/-- The loop in `getEnvKey`: the first candidate whose composed name has
a non-empty environment value. -/
def findEnvName (l : Loader) (env : EnvMap) (pfx : String) : List String → Option String
  | [] => none
  | nm :: rest =>
    if osGetenv env (composeEnvName l pfx nm) ≠ "" then some (composeEnvName l pfx nm)
    else findEnvName l env pfx rest

/-- `getEnvKey`.  With an `env` tag: candidates in declaration order,
first with a non-empty value wins, otherwise the first candidate (with
prefixes applied) is returned as the canonical name.  Without the tag:
the upper-cased snake-cased field identifier with prefixes applied. -/
def getEnvKey (l : Loader) (env : EnvMap) (f : FieldMeta) (pfx : String) : String :=
  if f.envTag ≠ "" then
    let envNames := goSplit f.envTag ','
    match findEnvName l env pfx envNames with
    | some n => n
    | none => composeEnvName l pfx (envNames.headD "")
  else
    let envKey := toSnakeCase f.name
    let envKey := if pfx ≠ "" then pfx ++ envKey else envKey
    let envKey := if l.envPrefix ≠ "" then l.envPrefix ++ envKey else envKey
    goToUpper envKey

/-- `getFlagName`: the first element of the `flag` tag, or the
kebab-cased field identifier.  No prefix of any kind is applied. -/
def getFlagName (f : FieldMeta) : String :=
  if f.flagTag ≠ "" then goTrimSpace ((goSplit f.flagTag ',').headD "")
  else toKebabCase f.name

/-- `getFlagValue`: the current rendering of a registered flag, or `""`
when no flag of that name exists. -/
def getFlagValue (fs : FlagSet) (n : String) : String :=
  match flagLookup fs n with
  | some v => v.render
  | none => ""

/-- `getNestedPrefix`. -/
def getNestedPrefix (f : FieldMeta) (currentPfx : String) : String :=
  if f.prefixTag ≠ "" then currentPfx ++ f.prefixTag
  else currentPfx ++ toSnakeCase f.name ++ "_"

end Enfl

namespace Enfl

/-! ## Type coercion engine (`setFieldValue`, `setSliceValue`)

Go's `setFieldValue` and `setSliceValue` are mutually recursive; the
recursion re-enters `setFieldValue` only at a slice's element kind,
which is never itself a slice (the data model's `sequence-of(T)` has a
non-sequence `T`; `ElemKind` below).  The embedding therefore factors
`setFieldValue` into its scalar arms (`setScalarValue`) and the
dispatching wrapper, keeping every definition structurally recursive. -/

/-- The scalar arms of `setFieldValue`: convert `value` by the target's
kind.  Signed and unsigned integers are parsed by `strconv` at 64-bit
width; `reflect.Value.SetInt`/`SetUint` then truncate the result to the
destination field's width.  (The `time.Duration` sub-case of the signed
branch and the float branches are outside the model; no claim mentions
them.) -/
def setScalarValue (kind : ElemKind) (value fieldName : String) : Except String Value :=
  match kind with
  | .eString => .ok (.vStr value)
  | .eInt w =>
    match goParseInt64 value with
    | .error e => .error ("invalid integer for " ++ fieldName ++ ": " ++ e)
    | .ok i => .ok (.vInt (truncSigned w.bits i))
  | .eUint w =>
    match goParseUint64 value with
    | .error e => .error ("invalid unsigned integer for " ++ fieldName ++ ": " ++ e)
    | .ok n => .ok (.vUint (n % 2 ^ w.bits))
  | .eBool =>
    match goParseBool value with
    | .error e => .error ("invalid boolean for " ++ fieldName ++ ": " ++ e)
    | .ok b => .ok (.vBool b)

/-- The loop of `setSliceValue`: element `i` is trimmed and converted
under the name `fieldName[i]` into a zero-initialised slot of the
freshly made slice; the first element error aborts the whole
conversion. -/
def convertParts (elem : ElemKind) (fieldName : String) (i : Nat) :
    List String → Except String (List Value)
  | [] => .ok []
  | p :: ps =>
    match setScalarValue elem (goTrimSpace p) (fieldName ++ "[" ++ toString i ++ "]") with
    | .error e => .error e
    | .ok v =>
      match convertParts elem fieldName (i + 1) ps with
      | .error e => .error e
      | .ok vs => .ok (v :: vs)

/-- `setSliceValue`: an empty raw string returns with the destination
untouched; otherwise split on `","`, convert every element into a
freshly made slice, and assign it only when all elements converted. -/
def setSliceValue (elem : ElemKind) (old : Value) (value fieldName : String) :
    Except String Value :=
  if value = "" then .ok old
  else
    match convertParts elem fieldName 0 (goSplit value ',') with
    | .error e => .error e
    | .ok vs => .ok (.vSlice vs)

/-- `setFieldValue`: convert `value` and assign it into a field of kind
`kind` currently holding `old`. -/
def setFieldValue (kind : Kind) (old : Value) (value fieldName : String) :
    Except String Value :=
  match kind with
  | .kString => setScalarValue .eString value fieldName
  | .kInt w => setScalarValue (.eInt w) value fieldName
  | .kUint w => setScalarValue (.eUint w) value fieldName
  | .kBool => setScalarValue .eBool value fieldName
  | .kSlice elem => setSliceValue elem old value fieldName

/-! ## Flag registration (`registerFieldFlag`, `registerFlags`) -/

/-- `registerFieldFlag`: derive the flag's name, skip silently when it is
empty or already registered, otherwise register a typed flag whose
default is the parsed `default` tag (a parse failure leaves the type's
zero default).  The `pfx` parameter mirrors the Go signature; the body
never uses it.  `int8/int16/int32` and `uint8/uint16/uint32` fields fall
into the switch's `default` arm: an unsupported-flag-type error.  The
generated usage text (`getFlagUsage`) only feeds the flag package's help
output and is not modelled. -/
def registerFieldFlag (fs : FlagSet) (kind : Kind) (f : FieldMeta) (pfx : String) :
    Except String FlagSet :=
  let flagName := getFlagName f
  if flagName = "" then .ok fs
  else if (flagLookup fs flagName).isSome then .ok fs
  else
    let defaultValue := f.defaultTag
    match kind with
    | .kString => .ok (fs ++ [(flagName, .fStr defaultValue)])
    | .kInt .iW =>
      let d : Int := if defaultValue ≠ "" then (goParseInt64 defaultValue).toOption.getD 0 else 0
      .ok (fs ++ [(flagName, .fInt d)])
    | .kInt .i64 =>
      let d : Int := if defaultValue ≠ "" then (goParseInt64 defaultValue).toOption.getD 0 else 0
      .ok (fs ++ [(flagName, .fInt d)])
    | .kUint .uW =>
      let d : Nat := if defaultValue ≠ "" then (goParseUint64 defaultValue).toOption.getD 0 else 0
      .ok (fs ++ [(flagName, .fUint d)])
    | .kUint .u64 =>
      let d : Nat := if defaultValue ≠ "" then (goParseUint64 defaultValue).toOption.getD 0 else 0
      .ok (fs ++ [(flagName, .fUint d)])
    | .kBool =>
      let d : Bool := if defaultValue ≠ "" then (goParseBool defaultValue).toOption.getD false else false
      .ok (fs ++ [(flagName, .fBool d)])
    | .kSlice _ => .ok (fs ++ [(flagName, .fStr defaultValue)])
    | k => .error ("unsupported flag type " ++ k.goName ++ " for field " ++ f.name)

/-! ## Configuration structures (the walker's input) -/

mutual

/-- One field's shape: a resolvable leaf, or a nested struct that the
walker recurses into.  (`time.Time` fields — `reflect.Struct` leaves —
are outside the model; no claim mentions them.) -/
inductive Cfg
  | leaf (kind : Kind) (val : Value)
  | node (fields : CfgFields)

/-- A struct's field list in declaration order: metadata, the `CanSet`
(exported) bit, and the field's shape. -/
inductive CfgFields
  | nil
  | cons (f : FieldMeta) (canSet : Bool) (c : Cfg) (rest : CfgFields)

end

/-- `registerFlags`: walk the struct in declaration order, skipping
non-settable fields, recursing into nested structs with the nested
prefix, and registering a flag per leaf. -/
def registerFlags (v : CfgFields) (pfx : String) (fs : FlagSet) : Except String FlagSet :=
  match v with
  | .nil => .ok fs
  | .cons f canSet c rest =>
    if canSet = false then registerFlags rest pfx fs
    else
      match c with
      | .node nested =>
        match registerFlags nested (getNestedPrefix f pfx) fs with
        | .error e => .error e
        | .ok fs' => registerFlags rest pfx fs'
      | .leaf kind _ =>
        match registerFieldFlag fs kind f pfx with
        | .error e => .error e
        | .ok fs' => registerFlags rest pfx fs'

end Enfl

namespace Enfl

/-! ## Per-field processing and the structure walker -/

/-- `processField`: tier resolution — 1. flag, 2. environment,
3. default — where a tier counts as supplying a value exactly when its
looked-up string is non-empty; then the required check; then coercion.
`.ok` carries the field's new value (unchanged when nothing was found
and the field is not required). -/
def processField (l : Loader) (env : EnvMap) (flags : FlagSet) (f : FieldMeta)
    (pfx : String) (kind : Kind) (old : Value) : Except String Value :=
  let envKey := getEnvKey l env f pfx
  let flagName := getFlagName f
  let defaultValue := f.defaultTag
  let required := f.requiredTag = "true"
  let s1 : String × Bool :=
    if flagName ≠ "" ∧ getFlagValue flags flagName ≠ "" then
      (getFlagValue flags flagName, true)
    else ("", false)
  let s2 : String × Bool :=
    if s1.2 = false ∧ envKey ≠ "" ∧ osGetenv env envKey ≠ "" then
      (osGetenv env envKey, true)
    else s1
  let s3 : String × Bool :=
    if s2.2 = false ∧ defaultValue ≠ "" then (defaultValue, true) else s2
  if required ∧ s3.2 = false then .error ("required field " ++ f.name ++ " not set")
  else if s3.2 = true then setFieldValue kind old s3.1 f.name
  else .ok old

/-- `processStruct`: walk the fields in declaration order.  A nested
struct is recursed into with the nested prefix and its error (if any)
returned immediately.  A leaf error aborts under fail-on-error, or is
appended to the diagnostic stream (`os.Stderr`) and skipped otherwise.
Returns the updated struct, the diagnostic log, and `processStruct`'s
returned error. -/
def processStruct (l : Loader) (env : EnvMap) (flags : FlagSet) (pfx : String)
    (v : CfgFields) (log : List String) : CfgFields × List String × Option String :=
  match v with
  | .nil => (.nil, log, none)
  | .cons f canSet c rest =>
    if canSet = false then
      let r := processStruct l env flags pfx rest log
      (.cons f canSet c r.1, r.2.1, r.2.2)
    else
      match c with
      | .node nested =>
        let rn := processStruct l env flags (getNestedPrefix f pfx) nested log
        match rn.2.2 with
        | some e => (.cons f canSet (.node rn.1) rest, rn.2.1, some e)
        | none =>
          let r := processStruct l env flags pfx rest rn.2.1
          (.cons f canSet (.node rn.1) r.1, r.2.1, r.2.2)
      | .leaf kind val =>
        match processField l env flags f pfx kind val with
        | .ok v' =>
          let r := processStruct l env flags pfx rest log
          (.cons f canSet (.leaf kind v') r.1, r.2.1, r.2.2)
        | .error e =>
          if l.failOnError then (.cons f canSet (.leaf kind val) rest, log, some e)
          else
            let r := processStruct l env flags pfx rest (log ++ ["config warning: " ++ e])
            (.cons f canSet (.leaf kind val) r.1, r.2.1, r.2.2)

/-! ## Env-file resolver (`unquoteValue`, `loadEnvFile`, `loadEnvFiles`) -/

/-- `unquoteValue`: strip matching double quotes and unescape the five
sequences, or strip matching single quotes verbatim. -/
def unquoteValue (value : String) : String :=
  let cs := value.data
  if cs.length ≥ 2 ∧ cs.headD ' ' = '"' ∧ cs.getLastD ' ' = '"' then
    let mid := (cs.drop 1).dropLast
    let mid := replace2 '\\' '"' '"' mid
    let mid := replace2 '\\' '\\' '\\' mid
    let mid := replace2 '\\' 'n' '\n' mid
    let mid := replace2 '\\' 'r' '\r' mid
    let mid := replace2 '\\' 't' '\t' mid
    String.mk mid
  else if cs.length ≥ 2 ∧ cs.headD ' ' = '\'' ∧ cs.getLastD ' ' = '\'' then
    String.mk ((cs.drop 1).dropLast)
  else value

/-- One iteration of `loadEnvFile`'s scanner loop on the (1-based) line
`lineNum`: skip blanks, comments, and empty-key/empty-value lines; a
line with no `=` is a hard error; otherwise apply the key only when the
ambient environment does not already hold it. -/
def applyEnvLine (env : EnvMap) (lineNum : Nat) (rawLine : String) :
    Except String EnvMap :=
  let line := goTrimSpace rawLine
  if line = "" ∨ startsWithChar line '#' = true then .ok env
  else
    match splitFirstEq line with
    | none => .error ("invalid format at line " ++ toString lineNum ++ ": " ++ line)
    | some kv =>
      let key := goTrimSpace kv.1
      let value := goTrimSpace kv.2
      if key = "" ∨ value = "" then .ok env
      else
        let value := unquoteValue value
        if osLookupEnvExists env key = true then .ok env
        else .ok (osSetenv env key value)

/-- The scanner loop of `loadEnvFile` from line number `lineNum`; on a
malformed line the error is returned with the environment mutations made
so far kept (Go's `os.Setenv` writes are not rolled back). -/
def scanEnvLines (env : EnvMap) (lineNum : Nat) :
    List String → EnvMap × Option String
  | [] => (env, none)
  | l :: ls =>
    match applyEnvLine env (lineNum + 1) l with
    | .error e => (env, some e)
    | .ok env' => scanEnvLines env' (lineNum + 1) ls

/-- The file system visible to the loader: file name to its lines (as
`bufio.Scanner` yields them). -/
abbrev FileSys := List (String × List String)

def fsLookup (fsys : FileSys) (fn : String) : Option (List String) :=
  (fsys.find? (fun p => p.1 = fn)).map (fun p => p.2)

/-- `os.Stat` succeeding. -/
def osStatExists (fsys : FileSys) (fn : String) : Bool :=
  (fsLookup fsys fn).isSome

/-- `loadEnvFile`: open the file (open failure is an error) and scan its
lines. -/
def loadEnvFile (fsys : FileSys) (env : EnvMap) (filename : String) :
    EnvMap × Option String :=
  match fsLookup fsys filename with
  | none => (env, some ("failed to open " ++ filename ++ ": no such file or directory"))
  | some lines => scanEnvLines env 0 lines

/-- The conventional file names `loadEnvFiles` auto-discovers. -/
def commonEnvFiles : List String := [".env", ".env.local", ".env.development", ".env.production"]

/-- The `filesToLoad` computation of `loadEnvFiles`: the explicitly
configured files, plus — when auto-loading is enabled — every
conventional file that exists. -/
def filesToLoad (l : Loader) (fsys : FileSys) : List String :=
  if l.autoLoadEnv then l.envFiles ++ commonEnvFiles.filter (osStatExists fsys)
  else l.envFiles

/-- The loading loop of `loadEnvFiles`: first failure aborts, wrapped
with the failing file's name; mutations from already-loaded files are
kept. -/
def loadFilesList (fsys : FileSys) (env : EnvMap) :
    List String → EnvMap × Option String
  | [] => (env, none)
  | fn :: rest =>
    match loadEnvFile fsys env fn with
    | (env', some e) => (env', some ("failed to load " ++ fn ++ ": " ++ e))
    | (env', none) => loadFilesList fsys env' rest

/-- `loadEnvFiles`. -/
def loadEnvFiles (l : Loader) (fsys : FileSys) (env : EnvMap) :
    EnvMap × Option String :=
  loadFilesList fsys env (filesToLoad l fsys)

/-! ## `Load` -/

/-- The outcome of one `Loader.Load` call: the (partially) populated
struct, the ambient environment after env-file loading, the flag set,
the diagnostic stream's lines, and `Load`'s returned error. -/
structure LoadResult where
  cfg : CfgFields
  env : EnvMap
  flags : FlagSet
  log : List String
  err : Option String

/-- `Loader.Load` on a (pointer to a) struct `cfg`, with `argv` the
`-name=value` command-line arguments `flag.Parse` consumes.  The
not-a-struct-pointer check cannot fire here (the input is a struct by
construction).  Env files are loaded first (fatal under fail-on-error,
logged otherwise), then flags are registered — a registration error
aborts `Load` regardless of the error policy — then the command line is
parsed, then the struct is processed. -/
def LoaderLoad (l : Loader) (fsys : FileSys) (argv : List (String × String))
    (env0 : EnvMap) (cfg : CfgFields) : LoadResult :=
  let envStep := loadEnvFiles l fsys env0
  let env := envStep.1
  let envFail : Bool := envStep.2.isSome ∧ l.failOnError
  match envStep.2, envFail with
  | some e, true =>
    { cfg := cfg, env := env, flags := [], log := [],
      err := some ("failed to load .env files: " ++ e) }
  | failure, _ =>
    let log : List String :=
      match failure with
      | some e => ["config warning: failed to load .env files: " ++ e]
      | none => []
    match registerFlags cfg "" [] with
    | .error e =>
      { cfg := cfg, env := env, flags := [], log := log,
        err := some ("failed to register flags: " ++ e) }
    | .ok flags0 =>
      let flags := argv.foldl (fun fs a => flagSetSupply fs a.1 a.2) flags0
      let r := processStruct l env flags "" cfg []
      { cfg := r.1, env := env, flags := flags, log := log ++ r.2.1, err := r.2.2 }

/-- The package-level convenience `Load`: a fresh default loader. -/
def LoadDefault (fsys : FileSys) (argv : List (String × String))
    (env0 : EnvMap) (cfg : CfgFields) : LoadResult :=
  LoaderLoad (NewLoader []) fsys argv env0 cfg

end Enfl

namespace Enfl

/-! ## Auxiliary definitions used by the statements below -/

/-- Whether `sub` occurs as a contiguous run inside `l`. -/
def listInfix (sub : List Char) : List Char → Bool
  | [] => sub.isEmpty
  | c :: rest => sub.isPrefixOf (c :: rest) || listInfix sub rest

/-- Whether `sub` is a substring of `s`. -/
def strContainsSub (s sub : String) : Bool := listInfix sub.data s.data

/-- The environment-name resolution for a tagged field as the
specification words it: every candidate composed as
`(global prefix) + (accumulated nested prefix) + candidate` (trimmed),
the first composed name with a non-empty environment value wins, and
otherwise the first candidate's composed name is the canonical result. -/
def getEnvKeySpec (l : Loader) (env : EnvMap) (f : FieldMeta) (pfx : String) : String :=
  let cands := (goSplit f.envTag ',').map (fun nm => l.envPrefix ++ (pfx ++ goTrimSpace nm))
  match cands.find? (fun n => osGetenv env n != "") with
  | some n => n
  | none => cands.headD ""

/-- The key/value binding a clean env-file line contributes: trimmed,
not blank, not a comment, split at the first `=`, key and value trimmed
and non-empty, value unquoted.  (Spec-side characterization used to
state the adoption half of the env-file claim.) -/
def lineBinding (rawLine : String) : Option (String × String) :=
  let line := goTrimSpace rawLine
  if line = "" ∨ startsWithChar line '#' = true then none
  else
    match splitFirstEq line with
    | none => none
    | some kv =>
      let key := goTrimSpace kv.1
      let value := goTrimSpace kv.2
      if key = "" ∨ value = "" then none
      else some (key, unquoteValue value)

/-! ## Concrete scenarios referenced by the theorems -/

/-- The README's priority-system example: `Port int` with
`env:"PORT" flag:"port" default:"8080"`. -/
def metaPort : FieldMeta :=
  { name := "Port", envTag := "PORT", flagTag := "port", defaultTag := "8080" }

def cfgPort : CfgFields := .cons metaPort true (.leaf (.kInt .iW) (.vInt 0)) .nil

/-- A required string field `Name` with `env:"NAME" required:"true"`. -/
def metaDBName : FieldMeta := { name := "Name", envTag := "NAME", requiredTag := "true" }

/-- A struct whose field `Database` (tagged `prefix:"DB_"`) nests the
required `Name` field. -/
def cfgDB : CfgFields :=
  .cons { name := "Database", prefixTag := "DB_" } true
    (.node (.cons metaDBName true (.leaf .kString (.vStr "")) .nil)) .nil

/-- A field whose `env` tag is lower-case: `env:"port"`. -/
def metaLowerPort : FieldMeta := { name := "Port", envTag := "port" }

/-- A field with alternate environment names `env:"PORT,SERVER_PORT"`. -/
def metaPorts : FieldMeta := { name := "Port", envTag := "PORT,SERVER_PORT" }

/-- An `int8` field. -/
def cfgTiny : CfgFields := .cons { name := "Tiny" } true (.leaf (.kInt .i8) (.vInt 0)) .nil

/-- A slice field whose `default` tag holds a malformed element. -/
def metaXs : FieldMeta := { name := "Xs", defaultTag := "1,x" }

/-- A two-field struct for the continue-on-error scenario: a required
field that resolves nothing and a slice field whose resolved value fails
coercion. -/
def cfgTwoBad : CfgFields :=
  .cons metaDBName true (.leaf .kString (.vStr ""))
    (.cons metaXs true (.leaf (.kSlice (.eInt .iW)) (.vSlice [])) .nil)

/-- `Host` leaf tagged `flag:"host" env:"HOST"`. -/
def metaHost : FieldMeta := { name := "Host", flagTag := "host", envTag := "HOST" }

/-- Two sibling nested structs, each holding a `Host` field with the
same flag name. -/
def cfgSib : CfgFields :=
  .cons { name := "A", prefixTag := "A_" } true
    (.node (.cons metaHost true (.leaf .kString (.vStr "")) .nil))
    (.cons { name := "B", prefixTag := "B_" } true
      (.node (.cons metaHost true (.leaf .kString (.vStr "")) .nil)) .nil)

def cfgSibResolved : CfgFields :=
  .cons { name := "A", prefixTag := "A_" } true
    (.node (.cons metaHost true (.leaf .kString (.vStr "h1")) .nil))
    (.cons { name := "B", prefixTag := "B_" } true
      (.node (.cons metaHost true (.leaf .kString (.vStr "h1")) .nil)) .nil)

end Enfl

namespace Enfl

/-! ## Claim theorems -/

/-- C6: coercing `"1,2,3"` into an integer-sequence field yields
`[1, 2, 3]` — split on commas, each element trimmed (witnessed by the
spaced variant) and converted independently — and coercing `""` into a
sequence field yields the empty sequence without an error. -/
theorem C6_sequence_roundtrip :
    setFieldValue (Kind.kSlice (.eInt .iW)) (Value.vSlice []) "1,2,3" "Ints"
      = Except.ok (Value.vSlice [.vInt 1, .vInt 2, .vInt 3])
    ∧ setFieldValue (Kind.kSlice (.eInt .iW)) (Value.vSlice []) " 1, 2 ,3 " "Ints"
      = Except.ok (Value.vSlice [.vInt 1, .vInt 2, .vInt 3])
    ∧ setFieldValue (Kind.kSlice (.eInt .iW)) (Value.vSlice []) "" "Ints"
      = Except.ok (Value.vSlice []) :=
  ⟨rfl, rfl, rfl⟩

/-- C3, counterexample: an 8-bit signed integer field given `"200"` does
NOT fail — `strconv.ParseInt` runs at 64-bit width and
`reflect.Value.SetInt` truncates, so `"200"` is accepted as `-56` and
`"-129"` as `127`, where the claim requires a TypeConversionError. -/
theorem C3_counterexample :
    setFieldValue (Kind.kInt .i8) (Value.vInt 0) "200" "Int8Field"
      = Except.ok (Value.vInt (-56))
    ∧ setFieldValue (Kind.kInt .i8) (Value.vInt 0) "-129" "Int8Field"
      = Except.ok (Value.vInt 127) :=
  ⟨rfl, rfl⟩

/-- C3, amended: integer coercion parses in base 10 at 64-bit width and
then truncates (two's complement) to the destination's width, so for an
8-bit signed field `"127"` and `"-128"` succeed with those values, while
`"200"` and `"-129"` also succeed, wrapping to `-56` and `127`; only
non-numeric input or input outside the 64-bit signed range fails.  In
general a successful 64-bit parse is always assigned truncated. -/
theorem C3_amended :
    setFieldValue (Kind.kInt .i8) (Value.vInt 0) "127" "Int8Field"
      = Except.ok (Value.vInt 127)
    ∧ setFieldValue (Kind.kInt .i8) (Value.vInt 0) "-128" "Int8Field"
      = Except.ok (Value.vInt (-128))
    ∧ setFieldValue (Kind.kInt .i8) (Value.vInt 0) "200" "Int8Field"
      = Except.ok (Value.vInt (-56))
    ∧ setFieldValue (Kind.kInt .i8) (Value.vInt 0) "-129" "Int8Field"
      = Except.ok (Value.vInt 127)
    ∧ setFieldValue (Kind.kInt .i8) (Value.vInt 0) "not-an-int" "Int8Field"
      = Except.error
          "invalid integer for Int8Field: strconv.ParseInt: parsing \"not-an-int\": invalid syntax"
    ∧ setFieldValue (Kind.kInt .i8) (Value.vInt 0) "9223372036854775808" "Int8Field"
      = Except.error
          "invalid integer for Int8Field: strconv.ParseInt: parsing \"9223372036854775808\": value out of range"
    ∧ (∀ (w : SIntW) (old : Value) (s fieldName : String) (i : Int),
        goParseInt64 s = Except.ok i →
        setFieldValue (Kind.kInt w) old s fieldName
          = Except.ok (Value.vInt (truncSigned w.bits i))) := by
  refine ⟨rfl, rfl, rfl, rfl, rfl, rfl, ?_⟩
  intro w old s fieldName i h
  simp only [setFieldValue, setScalarValue, h]

/-- C3, amended, witness at width 8 and input `"200"`. -/
theorem C3_amended_witness :
    setFieldValue (Kind.kInt .i8) (Value.vInt 5) "200" "F"
      = Except.ok (Value.vInt (truncSigned 8 200)) :=
  C3_amended.2.2.2.2.2.2 .i8 (Value.vInt 5) "200" "F" 200 rfl

/-- C9, counterexample: a loader built with an explicit env-file list and
no other option still auto-discovers — `WithEnvFiles` does not replace
the discovery defaults, because `NewLoader` enables auto-loading by
default; with `.env` existing, the files loaded are
`["custom.env", ".env"]`, not just `["custom.env"]`. -/
theorem C9_counterexample :
    filesToLoad (NewLoader [WithEnvFiles ["custom.env"]]) [(".env", ["A=1"])]
      = ["custom.env", ".env"]
    ∧ ["custom.env", ".env"] ≠ ["custom.env"] :=
  ⟨rfl, by decide⟩

/-- C9, amended: `WithEnvFiles` sets the explicit list, and
auto-discovery — enabled by default — appends every conventional file
that exists; only a loader that also disables auto-loading
(`WithAutoLoadEnv false`) loads exactly the explicit list. -/
theorem C9_amended :
    (∀ (files : List String) (fsys : FileSys),
      filesToLoad (NewLoader [WithEnvFiles files, WithAutoLoadEnv false]) fsys = files)
    ∧ (∀ (files : List String) (fsys : FileSys),
      filesToLoad (NewLoader [WithEnvFiles files]) fsys
        = files ++ commonEnvFiles.filter (osStatExists fsys)) :=
  ⟨fun _ _ => rfl, fun _ _ => rfl⟩

/-- C1: the resolution precedence is broken for every field whose
registered flag renders a non-empty default.  `registerFieldFlag`
registers the `default` tag as the flag's default and `getFlagValue`
returns `flag.Lookup(name).Value.String()`, which is that default when
the flag was not supplied; being non-empty, it wins the flag tier.  On
the README's own priority example (`Port int` with `default:"8080"`,
environment `PORT=8090`, no `-port` argument) `Load` assigns 8080, not
the documented 8090 — the environment tier is unreachable.  (With
`-port=9000` supplied the flag does win, as documented.) -/
theorem C1_flag_default_masks_env :
    (LoaderLoad (NewLoader []) [] [] [("PORT", "8090")] cfgPort).err = none
    ∧ (LoaderLoad (NewLoader []) [] [] [("PORT", "8090")] cfgPort).cfg
        = .cons metaPort true (.leaf (.kInt .iW) (.vInt 8080)) .nil
    ∧ Value.vInt 8080 ≠ Value.vInt 8090
    ∧ (LoaderLoad (NewLoader []) [] [("port", "9000")] [("PORT", "8090")] cfgPort).cfg
        = .cons metaPort true (.leaf (.kInt .iW) (.vInt 9000)) .nil :=
  ⟨rfl, rfl, by decide, rfl⟩

/-- C8, counterexample: under continue-on-error, `Load` does not return
nil for every struct — an `int8` field makes `registerFlags` fail
(`registerFieldFlag`'s switch has no `reflect.Int8` case) and `Load`
returns that error regardless of the error policy. -/
theorem C8_counterexample :
    (LoaderLoad (NewLoader [WithFailOnError false]) [] [] [] cfgTiny).err
      = some "failed to register flags: unsupported flag type int8 for field Tiny"
    ∧ (LoaderLoad (NewLoader [WithFailOnError false]) [] [] [] cfgTiny).err.isSome = true :=
  ⟨rfl, rfl⟩

end Enfl

namespace Enfl

/-! ## C4: environment-name candidates -/

theorem composeEnvName_eq (l : Loader) (pfx nm : String) :
    composeEnvName l pfx nm = l.envPrefix ++ (pfx ++ goTrimSpace nm) := by
  unfold composeEnvName
  by_cases h1 : pfx = "" <;> by_cases h2 : l.envPrefix = "" <;>
    simp [h1, h2, String.empty_append]

theorem splitCharList_ne_nil (sep : Char) (cs : List Char) : splitCharList sep cs ≠ [] := by
  induction cs with
  | nil => simp [splitCharList]
  | cons c cs ih =>
    by_cases hc : c = sep
    · simp [splitCharList, hc]
    · cases h : splitCharList sep cs with
      | nil => exact absurd h ih
      | cons g gs => simp [splitCharList, hc, h]

theorem goSplit_ne_nil (s : String) (sep : Char) : goSplit s sep ≠ [] := by
  unfold goSplit
  intro h
  exact splitCharList_ne_nil sep s.data (List.map_eq_nil_iff.mp h)

theorem findEnvName_eq (l : Loader) (env : EnvMap) (pfx : String) (names : List String) :
    findEnvName l env pfx names
      = (names.map (fun nm => l.envPrefix ++ (pfx ++ goTrimSpace nm))).find?
          (fun n => osGetenv env n != "") := by
  induction names with
  | nil => rfl
  | cons nm rest ih =>
    simp only [findEnvName, List.map_cons, composeEnvName_eq]
    by_cases h : osGetenv env (l.envPrefix ++ (pfx ++ goTrimSpace nm)) = ""
    · rw [if_neg (by simp [h]), List.find?_cons_of_neg _ (by simp [h]), ih]
    · rw [if_pos (by simp [h]), List.find?_cons_of_pos _ (by simp [h])]

/-- C4, counterexample: candidates from an `env` tag are NOT upper-cased.
With tag `env:"port"` and the environment holding `PORT=8085`, the
composed-and-upper-cased name `PORT` would resolve per the claim, but
`getEnvKey` looks up (and returns) the verbatim `port`, so the field
resolves nothing and keeps its zero value instead of `"8085"`. -/
theorem C4_counterexample :
    getEnvKey (NewLoader []) [("PORT", "8085")] metaLowerPort "" = "port"
    ∧ goToUpper "port" = "PORT"
    ∧ osGetenv [("PORT", "8085")] "PORT" = "8085"
    ∧ processField (NewLoader []) [("PORT", "8085")] [] metaLowerPort "" Kind.kString
        (Value.vStr "") = Except.ok (Value.vStr "")
    ∧ Value.vStr "" ≠ Value.vStr "8085" :=
  ⟨rfl, rfl, rfl, rfl, by decide⟩

/-- C4, amended: for a field with an `env` tag the candidates are tried
in declaration order, each composed as
`(global prefix) + (accumulated nested prefix) + trimmed candidate` and
looked up verbatim — no case conversion (upper-casing applies only to
the default field-name-derived key); the first candidate whose composed
name has a non-empty value wins, otherwise the first candidate's
composed name is the canonical result.  In particular, with
`env:"PORT,SERVER_PORT"` and only `SERVER_PORT` set, the field still
resolves from `SERVER_PORT`. -/
theorem C4_amended :
    (∀ (l : Loader) (env : EnvMap) (f : FieldMeta) (pfx : String),
      f.envTag ≠ "" → getEnvKey l env f pfx = getEnvKeySpec l env f pfx)
    ∧ getEnvKey (NewLoader []) [("SERVER_PORT", "9000")] metaPorts "" = "SERVER_PORT"
    ∧ processField (NewLoader []) [("SERVER_PORT", "9000")] [] metaPorts "" (Kind.kInt .iW)
        (Value.vInt 0) = Except.ok (Value.vInt 9000) := by
  refine ⟨?_, rfl, rfl⟩
  intro l env f pfx h
  simp only [getEnvKey, getEnvKeySpec, h, if_true, findEnvName_eq]
  cases hs : goSplit f.envTag ',' with
  | nil => exact absurd hs (goSplit_ne_nil _ _)
  | cons a as =>
    cases hf : (((a :: as).map (fun nm => l.envPrefix ++ (pfx ++ goTrimSpace nm))).find?
        (fun n => osGetenv env n != "")) with
    | none => simp [composeEnvName_eq, h]
    | some n => simp [h]

/-- C4, amended, witness: the tagged branch of `getEnvKey` agrees with
the candidate-list specification at a concrete prefixed lookup. -/
theorem C4_amended_witness :
    getEnvKey (NewLoader [WithEnvPrefix "APP_"]) [("APP_DB_SERVER_PORT", "1")] metaPorts "DB_"
      = getEnvKeySpec (NewLoader [WithEnvPrefix "APP_"]) [("APP_DB_SERVER_PORT", "1")] metaPorts "DB_"
    ∧ getEnvKeySpec (NewLoader [WithEnvPrefix "APP_"]) [("APP_DB_SERVER_PORT", "1")] metaPorts "DB_"
      = "APP_DB_SERVER_PORT" :=
  ⟨C4_amended.1 (NewLoader [WithEnvPrefix "APP_"]) [("APP_DB_SERVER_PORT", "1")] metaPorts "DB_"
    (by decide), rfl⟩

end Enfl

namespace Enfl

/-! ## C2: required-field reporting -/

/-- C2, counterexample: the required-field error does NOT name the
fully-qualified primary identifier.  For the nested required field
`Name` under prefix `DB_` the fully-qualified primary identifier is
`DB_NAME`, but `Load` reports `required field Name not set`, using the
bare Go field identifier (`fieldType.Name`). -/
theorem C2_counterexample :
    (LoaderLoad (NewLoader []) [] [] [] cfgDB).err = some "required field Name not set"
    ∧ getEnvKey (NewLoader []) [] metaDBName "DB_" = "DB_NAME"
    ∧ strContainsSub "required field Name not set" "DB_NAME" = false :=
  ⟨rfl, rfl, by decide⟩

/-- C2, amended: a required field whose whole resolution chain (flag
value, environment value, default) yields nothing makes `processField`
return a required-field error naming the field's bare Go identifier
(not the fully-qualified one); under fail-on-error `Load` returns that
error, and under continue-on-error `Load` returns nil, the diagnostic
stream receives the same message, and the field keeps its zero value. -/
theorem C2_amended :
    (∀ (l : Loader) (env : EnvMap) (flags : FlagSet) (f : FieldMeta) (pfx : String)
        (kind : Kind) (old : Value),
      f.requiredTag = "true" →
      (getFlagName f = "" ∨ getFlagValue flags (getFlagName f) = "") →
      (getEnvKey l env f pfx = "" ∨ osGetenv env (getEnvKey l env f pfx) = "") →
      f.defaultTag = "" →
      processField l env flags f pfx kind old
        = Except.error ("required field " ++ f.name ++ " not set"))
    ∧ (LoaderLoad (NewLoader []) [] [] [] cfgDB).err = some "required field Name not set"
    ∧ (LoaderLoad (NewLoader [WithFailOnError false]) [] [] [] cfgDB).err = none
    ∧ (LoaderLoad (NewLoader [WithFailOnError false]) [] [] [] cfgDB).log
        = ["config warning: required field Name not set"]
    ∧ (LoaderLoad (NewLoader [WithFailOnError false]) [] [] [] cfgDB).cfg = cfgDB := by
  refine ⟨?_, rfl, rfl, rfl, rfl⟩
  intro l env flags f pfx kind old hreq hflag henv hdef
  have h1 : ¬(getFlagName f ≠ "" ∧ getFlagValue flags (getFlagName f) ≠ "") := by
    rcases hflag with h | h
    · exact fun hc => hc.1 h
    · exact fun hc => hc.2 h
  simp only [processField]
  rw [if_neg h1]
  have h2 : ¬((("", false) : String × Bool).2 = false ∧ getEnvKey l env f pfx ≠ ""
      ∧ osGetenv env (getEnvKey l env f pfx) ≠ "") := by
    rcases henv with h | h
    · exact fun hc => hc.2.1 h
    · exact fun hc => hc.2.2 h
  rw [if_neg h2]
  have h3 : ¬((("", false) : String × Bool).2 = false ∧ f.defaultTag ≠ "") :=
    fun hc => hc.2 hdef
  rw [if_neg h3]
  rw [if_pos ⟨hreq, rfl⟩]

/-- C2, amended, witness: the nested required `Name` field at prefix
`DB_` with empty flag set and environment. -/
theorem C2_amended_witness :
    processField (NewLoader []) [] [] metaDBName "DB_" Kind.kString (Value.vStr "")
      = Except.error "required field Name not set" :=
  C2_amended.1 (NewLoader []) [] [] metaDBName "DB_" Kind.kString (Value.vStr "") rfl
    (Or.inr rfl) (Or.inr rfl) rfl

end Enfl

namespace Enfl

/-! ## C5: sequence coercion is atomic -/

/-- Whether a scalar conversion succeeds does not depend on the field
name (the name only feeds the error message). -/
theorem setScalarValue_isOk_name (k : ElemKind) (v n1 n2 : String) :
    (setScalarValue k v n1).isOk = (setScalarValue k v n2).isOk := by
  cases k with
  | eString => rfl
  | eInt w => cases h : goParseInt64 v <;> simp [setScalarValue, h, Except.isOk, Except.toBool]
  | eUint w => cases h : goParseUint64 v <;> simp [setScalarValue, h, Except.isOk, Except.toBool]
  | eBool => cases h : goParseBool v <;> simp [setScalarValue, h, Except.isOk, Except.toBool]

/-- If some part fails to convert (under any name), the whole
`convertParts` loop fails. -/
theorem convertParts_err (elem : ElemKind) (nm fieldName : String) :
    ∀ (parts : List String) (i : Nat),
      (∃ p ∈ parts, (setScalarValue elem (goTrimSpace p) nm).isOk = false) →
      (convertParts elem fieldName i parts).isOk = false := by
  intro parts
  induction parts with
  | nil => intro i h; simp at h
  | cons p ps ih =>
    intro i h
    rcases h with ⟨q, hq, hbad⟩
    rcases List.mem_cons.mp hq with hqp | hqs
    · subst hqp
      cases hs : setScalarValue elem (goTrimSpace q) (fieldName ++ "[" ++ toString i ++ "]") with
      | error e => simp [convertParts, hs, Except.isOk, Except.toBool]
      | ok v =>
        rw [setScalarValue_isOk_name elem (goTrimSpace q) nm
          (fieldName ++ "[" ++ toString i ++ "]"), hs] at hbad
        simp [Except.isOk, Except.toBool] at hbad
    · cases hs : setScalarValue elem (goTrimSpace p) (fieldName ++ "[" ++ toString i ++ "]") with
      | error e => simp [convertParts, hs, Except.isOk, Except.toBool]
      | ok v =>
        have hrec := ih (i + 1) ⟨q, hqs, hbad⟩
        cases hr : convertParts elem fieldName (i + 1) ps with
        | error e => simp [convertParts, hs, hr, Except.isOk, Except.toBool]
        | ok vs => rw [hr] at hrec; simp [Except.isOk, Except.toBool] at hrec

/-- The walker keeps an erroring leaf at its previous value: it aborts
with the error under fail-on-error, or logs `config warning: <error>`
and continues with the remaining fields otherwise. -/
theorem processStruct_cons_leaf_error (l : Loader) (env : EnvMap) (flags : FlagSet)
    (pfx : String) (f : FieldMeta) (kind : Kind) (val : Value) (rest : CfgFields)
    (log : List String) (e : String)
    (h : processField l env flags f pfx kind val = Except.error e) :
    processStruct l env flags pfx (.cons f true (.leaf kind val) rest) log
      = if l.failOnError then (.cons f true (.leaf kind val) rest, log, some e)
        else
          (.cons f true (.leaf kind val)
              (processStruct l env flags pfx rest (log ++ ["config warning: " ++ e])).1,
            (processStruct l env flags pfx rest (log ++ ["config warning: " ++ e])).2.1,
            (processStruct l env flags pfx rest (log ++ ["config warning: " ++ e])).2.2) := by
  by_cases hf : l.failOnError <;> simp [processStruct, h, hf]

/-- C5: sequence coercion is atomic.  If any element of a non-empty raw
string fails to convert, `setSliceValue` returns an error and assigns
nothing; and the walker leaves a leaf whose `processField` errored at
its previous value (aborting or logging per the error policy), so no
partial assignment ever occurs. -/
theorem C5_sequence_atomic :
    (∀ (elem : ElemKind) (old : Value) (value fieldName nm : String),
      value ≠ "" →
      (∃ p ∈ goSplit value ',', (setScalarValue elem (goTrimSpace p) nm).isOk = false) →
      (setSliceValue elem old value fieldName).isOk = false)
    ∧ (∀ (l : Loader) (env : EnvMap) (flags : FlagSet) (pfx : String) (f : FieldMeta)
        (kind : Kind) (val : Value) (rest : CfgFields) (log : List String) (e : String),
      processField l env flags f pfx kind val = Except.error e →
      processStruct l env flags pfx (.cons f true (.leaf kind val) rest) log
        = if l.failOnError then (.cons f true (.leaf kind val) rest, log, some e)
          else
            (.cons f true (.leaf kind val)
                (processStruct l env flags pfx rest (log ++ ["config warning: " ++ e])).1,
              (processStruct l env flags pfx rest (log ++ ["config warning: " ++ e])).2.1,
              (processStruct l env flags pfx rest (log ++ ["config warning: " ++ e])).2.2)) := by
  constructor
  · intro elem old value fieldName nm hne hex
    simp only [setSliceValue]
    rw [if_neg hne]
    have herr := convertParts_err elem nm fieldName (goSplit value ',') 0 hex
    cases hc : convertParts elem fieldName 0 (goSplit value ',') with
    | error e => simp [Except.isOk, Except.toBool]
    | ok vs => rw [hc] at herr; simp [Except.isOk, Except.toBool] at herr
  · exact processStruct_cons_leaf_error

/-- C5, witness: `"1,x,3"` into an int slice fails, and the walker keeps
the slice field `Xs` (whose default `"1,x"` fails element 1) at its
previous empty value while reporting the element error. -/
theorem C5_sequence_atomic_witness :
    (setSliceValue (ElemKind.eInt .iW) (Value.vSlice []) "1,x,3" "Ints").isOk = false
    ∧ processStruct (NewLoader []) [] [] ""
        (.cons metaXs true (.leaf (Kind.kSlice (.eInt .iW)) (Value.vSlice [])) .nil) []
      = (.cons metaXs true (.leaf (Kind.kSlice (.eInt .iW)) (Value.vSlice [])) .nil, [],
          some "invalid integer for Xs[1]: strconv.ParseInt: parsing \"x\": invalid syntax") := by
  constructor
  · exact C5_sequence_atomic.1 (ElemKind.eInt .iW) (Value.vSlice []) "1,x,3" "Ints" "E"
      (by decide) ⟨"x", by decide, by rfl⟩
  · exact (C5_sequence_atomic.2 (NewLoader []) [] [] "" metaXs (Kind.kSlice (.eInt .iW))
      (Value.vSlice []) .nil []
      "invalid integer for Xs[1]: strconv.ParseInt: parsing \"x\": invalid syntax" rfl).trans rfl

end Enfl

namespace Enfl

/-! ## C8: continue-on-error -/

/-- Under continue-on-error the walker never returns an error. -/
theorem processStruct_continue_no_error (l : Loader) (env : EnvMap) (flags : FlagSet)
    (h : l.failOnError = false) :
    ∀ (pfx : String) (v : CfgFields) (log : List String),
      (processStruct l env flags pfx v log).2.2 = none := by
  intro pfx v log
  refine processStruct.induct l env flags
    (fun pfx v log => (processStruct l env flags pfx v log).2.2 = none)
    ?_ ?_ ?_ ?_ ?_ ?_ ?_ pfx v log
  · intro pfx2 log2
    rfl
  · intro pfx2 log2 f c rest ih
    cases c with
    | leaf kind val => simp [processStruct, ih]
    | node nested => simp [processStruct, ih]
  · intro pfx2 log2 f canSet rest hset nested rn n hsome ihn
    have hsome2 : (processStruct l env flags (getNestedPrefix f pfx2) nested log2).2.2 = some n :=
      hsome
    rw [ihn] at hsome2
    exact absurd hsome2 (by simp)
  · intro pfx2 log2 f canSet rest hset nested rn hnone ihn ihrest
    have hrest : (processStruct l env flags pfx2 rest
        (processStruct l env flags (getNestedPrefix f pfx2) nested log2).2.1).2.2 = none := ihrest
    simp [processStruct, hset, ihn, hrest]
  · intro pfx2 log2 f canSet rest hset kind val v2 hok ihrest
    simp [processStruct, hset, hok, ihrest]
  · intro pfx2 log2 f canSet rest hset kind val e herr hfail
    simp [h] at hfail
  · intro pfx2 log2 f canSet rest hset kind val e herr hnf ihrest
    simp [processStruct, hset, herr, h, ihrest]

/-- A successful env-file pass and flag registration make continue-mode
`Load` return the walker's error, which is none. -/
theorem LoaderLoad_continue_no_error (l : Loader) (fsys : FileSys)
    (argv : List (String × String)) (env0 : EnvMap) (cfg : CfgFields) (flags0 : FlagSet)
    (h : l.failOnError = false)
    (henv : (loadEnvFiles l fsys env0).2 = none)
    (hreg : registerFlags cfg "" [] = Except.ok flags0) :
    (LoaderLoad l fsys argv env0 cfg).err = none := by
  simp only [LoaderLoad, henv, hreg]
  exact processStruct_continue_no_error l _ _ h _ _ _

/-- C8, amended: under continue-on-error every per-field error raised
during struct processing is written to the diagnostic stream and
processing continues to the next field, and the walker (hence `Load`,
when env-file loading and flag registration succeed) returns nil;
flag-registration errors, however, abort `Load` with an error even in
this mode (see the counterexample). -/
theorem C8_amended :
    (∀ (l : Loader) (env : EnvMap) (flags : FlagSet) (pfx : String) (v : CfgFields)
        (log : List String), l.failOnError = false →
      (processStruct l env flags pfx v log).2.2 = none)
    ∧ (∀ (l : Loader) (env : EnvMap) (flags : FlagSet) (pfx : String) (f : FieldMeta)
        (kind : Kind) (val : Value) (rest : CfgFields) (log : List String) (e : String),
      l.failOnError = false →
      processField l env flags f pfx kind val = Except.error e →
      processStruct l env flags pfx (.cons f true (.leaf kind val) rest) log
        = (.cons f true (.leaf kind val)
              (processStruct l env flags pfx rest (log ++ ["config warning: " ++ e])).1,
            (processStruct l env flags pfx rest (log ++ ["config warning: " ++ e])).2.1,
            (processStruct l env flags pfx rest (log ++ ["config warning: " ++ e])).2.2))
    ∧ (∀ (l : Loader) (fsys : FileSys) (argv : List (String × String)) (env0 : EnvMap)
        (cfg : CfgFields) (flags0 : FlagSet),
      l.failOnError = false →
      (loadEnvFiles l fsys env0).2 = none →
      registerFlags cfg "" [] = Except.ok flags0 →
      (LoaderLoad l fsys argv env0 cfg).err = none) := by
  refine ⟨?_, ?_, ?_⟩
  · intro l env flags pfx v log h
    exact processStruct_continue_no_error l env flags h pfx v log
  · intro l env flags pfx f kind val rest log e h herr
    rw [processStruct_cons_leaf_error l env flags pfx f kind val rest log e herr, if_neg (by simp [h])]
  · intro l fsys argv env0 cfg flags0 h henv hreg
    exact LoaderLoad_continue_no_error l fsys argv env0 cfg flags0 h henv hreg

/-- C8, amended, witness: a continue-mode load over a struct with a
required field that resolves nothing and a slice field whose default
fails coercion returns nil and logs both errors. -/
theorem C8_amended_witness :
    (LoaderLoad (NewLoader [WithFailOnError false]) [] [] [] cfgTwoBad).err = none
    ∧ (LoaderLoad (NewLoader [WithFailOnError false]) [] [] [] cfgTwoBad).log
        = ["config warning: required field Name not set",
           "config warning: invalid integer for Xs[1]: strconv.ParseInt: parsing \"x\": invalid syntax"] :=
  ⟨C8_amended.2.2 (NewLoader [WithFailOnError false]) [] [] [] cfgTwoBad
      [("name", .fStr ""), ("xs", .fStr "1,x")] rfl rfl rfl,
    rfl⟩

end Enfl

namespace Enfl

/-! ## C7: env-file values never overwrite the ambient environment -/

theorem envLookup_append_left (env l2 : EnvMap) (k v : String)
    (h : envLookup env k = some v) : envLookup (env ++ l2) k = some v := by
  unfold envLookup at h ⊢
  rw [List.find?_append]
  cases hf : List.find? (fun p => p.1 = k) env with
  | none => rw [hf] at h; simp at h
  | some q => rw [hf] at h; simpa [Option.or] using h

theorem envLookup_setenv_self (env : EnvMap) (key v : String)
    (habs : envLookup env key = none) : envLookup (osSetenv env key v) key = some v := by
  have hf : List.find? (fun p => p.1 = key) env = none := by
    unfold envLookup at habs
    cases hf : List.find? (fun p => p.1 = key) env with
    | none => rfl
    | some q => rw [hf] at habs; simp at habs
  unfold osSetenv
  rw [if_neg (by simp [habs])]
  unfold envLookup
  rw [List.find?_append, hf]
  simp [List.find?]

theorem envLookup_setenv_other (env : EnvMap) (key v k : String)
    (habs : envLookup env key = none) (hne : key ≠ k) :
    envLookup (osSetenv env key v) k = envLookup env k := by
  unfold osSetenv
  rw [if_neg (by simp [habs])]
  unfold envLookup
  rw [List.find?_append]
  have h1 : List.find? (fun p => p.1 = k) [(key, v)] = none := by simp [List.find?, hne]
  rw [h1]
  cases List.find? (fun p => p.1 = k) env <;> simp [Option.or]

/-- `applyEnvLine` computes exactly the conditional adoption of the
line's binding. -/
theorem applyEnvLine_ok (env : EnvMap) (n : Nat) (line : String) (env' : EnvMap)
    (h : applyEnvLine env n line = .ok env') :
    env' = match lineBinding line with
      | none => env
      | some kv => if (envLookup env kv.1).isSome then env else osSetenv env kv.1 kv.2 := by
  unfold applyEnvLine at h
  unfold lineBinding
  by_cases h1 : goTrimSpace line = "" ∨ startsWithChar (goTrimSpace line) '#' = true
  · rw [if_pos h1] at h
    rw [if_pos h1]
    exact (Except.ok.inj h).symm
  · rw [if_neg h1] at h
    rw [if_neg h1]
    cases hsp : splitFirstEq (goTrimSpace line) with
    | none => rw [hsp] at h; exact absurd h (by simp)
    | some kv =>
      rw [hsp] at h
      dsimp only at h ⊢
      by_cases h2 : goTrimSpace kv.1 = "" ∨ goTrimSpace kv.2 = ""
      · rw [if_pos h2] at h
        simp only [if_pos h2]
        exact (Except.ok.inj h).symm
      · rw [if_neg h2] at h
        simp only [if_neg h2]
        by_cases h3 : osLookupEnvExists env (goTrimSpace kv.1) = true
        · rw [if_pos h3] at h
          simp only [osLookupEnvExists] at h3
          rw [if_pos h3]
          exact (Except.ok.inj h).symm
        · rw [if_neg h3] at h
          simp only [osLookupEnvExists] at h3
          rw [if_neg h3]
          exact (Except.ok.inj h).symm

/-- One successful line keeps every existing binding. -/
theorem applyEnvLine_preserve (env : EnvMap) (n : Nat) (line : String) (env' : EnvMap)
    (k v : String) (h : envLookup env k = some v)
    (hok : applyEnvLine env n line = .ok env') : envLookup env' k = some v := by
  rw [applyEnvLine_ok env n line env' hok]
  cases hb : lineBinding line with
  | none => exact h
  | some kv =>
    by_cases hex : (envLookup env kv.1).isSome
    · simp only [if_pos hex]; exact h
    · simp only [if_neg hex]
      have habs : envLookup env kv.1 = none := by
        cases hc : envLookup env kv.1 with
        | none => rfl
        | some q => rw [hc] at hex; simp at hex
      have hne : kv.1 ≠ k := by
        intro he
        rw [he, h] at habs
        exact absurd habs (by simp)
      rw [envLookup_setenv_other env kv.1 kv.2 k habs hne]
      exact h

theorem scanEnvLines_preserve (k v : String) :
    ∀ (env : EnvMap) (n : Nat) (lines : List String),
      envLookup env k = some v →
      envLookup (scanEnvLines env n lines).1 k = some v := by
  intro env n lines
  induction env, n, lines using scanEnvLines.induct with
  | case1 env n => intro h; exact h
  | case2 env n line ls e herr => intro h; simp [scanEnvLines, herr]; exact h
  | case3 env n line ls env' hok ih =>
    intro h
    simp only [scanEnvLines, hok]
    exact ih (applyEnvLine_preserve env (n + 1) line env' k v h hok)

theorem loadEnvFile_preserve (fsys : FileSys) (env : EnvMap) (fn k v : String)
    (h : envLookup env k = some v) : envLookup (loadEnvFile fsys env fn).1 k = some v := by
  unfold loadEnvFile
  cases fsLookup fsys fn with
  | none => exact h
  | some lines => exact scanEnvLines_preserve k v env 0 lines h

theorem loadFilesList_preserve (fsys : FileSys) (k v : String) :
    ∀ (env : EnvMap) (files : List String),
      envLookup env k = some v →
      envLookup (loadFilesList fsys env files).1 k = some v := by
  intro env files
  induction env, files using loadFilesList.induct fsys with
  | case1 env => intro h; exact h
  | case2 env fn rest env' e hload =>
    intro h
    have := loadEnvFile_preserve fsys env fn k v h
    simp only [loadFilesList, hload]
    rw [hload] at this
    exact this
  | case3 env fn rest env' hload ih =>
    intro h
    have := loadEnvFile_preserve fsys env fn k v h
    rw [hload] at this
    simp only [loadFilesList, hload]
    exact ih this

/-- The first clean binding of an absent key in a file is adopted. -/
theorem scanEnvLines_adopt (k v : String) :
    ∀ (env : EnvMap) (n : Nat) (lines : List String),
      envLookup env k = none →
      (scanEnvLines env n lines).2 = none →
      (lines.filterMap lineBinding).find? (fun p => p.1 = k) = some (k, v) →
      envLookup (scanEnvLines env n lines).1 k = some v := by
  intro env n lines
  induction env, n, lines using scanEnvLines.induct with
  | case1 env n => intro _ _ hf; simp at hf
  | case2 env n line ls e herr => intro _ hok _; simp [scanEnvLines, herr] at hok
  | case3 env n line ls env' hok ih =>
    intro habs herrs hf
    simp only [scanEnvLines, hok] at herrs ⊢
    have hb := applyEnvLine_ok env (n + 1) line env' hok
    cases hbind : lineBinding line with
    | none =>
      rw [hbind] at hb
      subst hb
      rw [List.filterMap_cons, hbind] at hf
      exact ih habs herrs hf
    | some kv =>
      rw [hbind] at hb
      rw [List.filterMap_cons, hbind] at hf
      dsimp only at hb hf
      by_cases hk : kv.1 = k
      · have hfkv : kv = (k, v) := by
          rw [List.find?_cons_of_pos _ (by simp [hk])] at hf
          exact Option.some.inj hf
        have hnotex : (envLookup env kv.1).isSome = false := by
          rw [hk, habs]; rfl
        rw [if_neg (by simp [hnotex])] at hb
        subst hb
        have : envLookup (osSetenv env kv.1 kv.2) k = some v := by
          rw [hfkv]
          exact envLookup_setenv_self env k v habs
        exact scanEnvLines_preserve k v _ (n + 1) ls this
      · have hf2 : (ls.filterMap lineBinding).find? (fun p => p.1 = k) = some (k, v) := by
          rw [List.find?_cons_of_neg _ (by simp [hk])] at hf
          exact hf
        have habs2 : envLookup env' k = none := by
          by_cases hex : (envLookup env kv.1).isSome
          · rw [if_pos hex] at hb; subst hb; exact habs
          · rw [if_neg hex] at hb
            have habskv : envLookup env kv.1 = none := by
              cases hc : envLookup env kv.1 with
              | none => rfl
              | some q => rw [hc] at hex; simp at hex
            subst hb
            rw [envLookup_setenv_other env kv.1 kv.2 k habskv hk]
            exact habs
        exact ih habs2 herrs hf2

/-- C7: when loading `.env` files, a key is written into the ambient
environment only if absent there.  Every key present in the initial
environment keeps its value through any `loadEnvFiles` run, regardless
of which files load (or fail); and a key absent from the environment
whose first clean binding in a cleanly-scanned file is `v` ends up bound
to `v`. -/
theorem C7_env_file_no_overwrite :
    (∀ (l : Loader) (fsys : FileSys) (env0 : EnvMap) (k v : String),
      envLookup env0 k = some v →
      envLookup (loadEnvFiles l fsys env0).1 k = some v)
    ∧ (∀ (fsys : FileSys) (env0 : EnvMap) (fn : String) (lines : List String) (k v : String),
      fsLookup fsys fn = some lines →
      envLookup env0 k = none →
      (loadEnvFile fsys env0 fn).2 = none →
      (lines.filterMap lineBinding).find? (fun p => p.1 = k) = some (k, v) →
      envLookup (loadEnvFile fsys env0 fn).1 k = some v) := by
  constructor
  · intro l fsys env0 k v h
    exact loadFilesList_preserve fsys k v env0 (filesToLoad l fsys) h
  · intro fsys env0 fn lines k v hfs habs herr hf
    unfold loadEnvFile at herr ⊢
    rw [hfs] at herr ⊢
    exact scanEnvLines_adopt k v env0 0 lines habs herr hf

/-- C7, witness: with the real environment holding `A=real` and `.env`
holding both an `A` line and a `B` line, `A` keeps `real` and `B` adopts
the file value. -/
theorem C7_env_file_no_overwrite_witness :
    envLookup (loadEnvFiles (NewLoader []) [(".env", ["A=file", "B = fromfile"])]
        [("A", "real")]).1 "A" = some "real"
    ∧ envLookup (loadEnvFile [(".env", ["A=file", "B = fromfile"])] [("A", "real")] ".env").1 "B"
        = some "fromfile" :=
  ⟨C7_env_file_no_overwrite.1 (NewLoader []) [(".env", ["A=file", "B = fromfile"])]
      [("A", "real")] "A" "real" rfl,
    C7_env_file_no_overwrite.2 [(".env", ["A=file", "B = fromfile"])] [("A", "real")] ".env"
      ["A=file", "B = fromfile"] "B" "fromfile" rfl rfl rfl rfl⟩

end Enfl

namespace Enfl

/-! ## C10: flag names are prefix-free and shared -/

/-- C10: flag registration never consults the accumulated nested prefix
or the global prefix — `registerFieldFlag` and the whole `registerFlags`
walk produce the same flag set under any prefix — a flag name already
registered is silently skipped, and two fields with the same flag name
in sibling nested structs share one registration and both resolve from
that single flag's value (here `-host=h1` fills both `A.Host` and
`B.Host`). -/
theorem C10_flag_sharing :
    (∀ (fs : FlagSet) (kind : Kind) (f : FieldMeta) (p1 p2 : String),
      registerFieldFlag fs kind f p1 = registerFieldFlag fs kind f p2)
    ∧ (∀ (v : CfgFields) (p1 p2 : String) (fs : FlagSet),
      registerFlags v p1 fs = registerFlags v p2 fs)
    ∧ (∀ (fs : FlagSet) (kind : Kind) (f : FieldMeta) (pfx : String),
      (flagLookup fs (getFlagName f)).isSome = true →
      registerFieldFlag fs kind f pfx = Except.ok fs)
    ∧ registerFlags cfgSib "" [] = Except.ok [("host", FlagVal.fStr "")]
    ∧ processStruct (NewLoader []) [] (flagSetSupply [("host", FlagVal.fStr "")] "host" "h1")
        "" cfgSib [] = (cfgSibResolved, [], none) := by
  refine ⟨fun _ _ _ _ _ => rfl, ?_, ?_, rfl, rfl⟩
  · intro v p1 p2 fs
    refine registerFlags.induct
      (fun v pfx fs => ∀ q : String, registerFlags v pfx fs = registerFlags v q fs)
      ?_ ?_ ?_ ?_ ?_ ?_ v p1 fs p2
    · intro pfx fs q
      rfl
    · intro pfx fs f c rest ih q
      cases c with
      | leaf kind val => simp [registerFlags, ih q]
      | node nested => simp [registerFlags, ih q]
    · intro pfx fs f canSet rest hset nested e herr ihn q
      have hn2 : registerFlags nested (getNestedPrefix f q) fs = Except.error e :=
        (ihn (getNestedPrefix f q)).symm.trans herr
      simp [registerFlags, hset, herr, hn2]
    · intro pfx fs f canSet rest hset nested fs2 hok ihn ihrest q
      have hn2 : registerFlags nested (getNestedPrefix f q) fs = Except.ok fs2 :=
        (ihn (getNestedPrefix f q)).symm.trans hok
      simp [registerFlags, hset, hok, hn2, ihrest q]
    · intro pfx fs f canSet rest hset kind val e herr q
      have herr2 : registerFieldFlag fs kind f q = Except.error e := herr
      simp [registerFlags, hset, herr, herr2]
    · intro pfx fs f canSet rest hset kind val fs2 hok ihrest q
      have hok2 : registerFieldFlag fs kind f q = Except.ok fs2 := hok
      simp [registerFlags, hset, hok, hok2, ihrest q]
  · intro fs kind f pfx hlook
    by_cases h0 : getFlagName f = "" <;> simp [registerFieldFlag, h0, hlook]

/-- C10, witness: a `Host` field whose flag name is already registered
is skipped under an arbitrary prefix. -/
theorem C10_flag_sharing_witness :
    registerFieldFlag [("host", FlagVal.fStr "x")] Kind.kString metaHost "P_"
      = Except.ok [("host", FlagVal.fStr "x")] :=
  C10_flag_sharing.2.2.1 [("host", FlagVal.fStr "x")] Kind.kString metaHost "P_" rfl

end Enfl

namespace Enfl

/-! ## Sanity evaluations of the embedded primitives -/

example : goTrimSpace "  a b\t" = "a b" := by decide
example : goParseInt64 "-129" = .ok (-129) := by rfl
example : goParseInt64 "12a" =
    .error "strconv.ParseInt: parsing \"12a\": invalid syntax" := by rfl
example : goParseUint64 "-1" =
    .error "strconv.ParseUint: parsing \"-1\": invalid syntax" := by rfl
example : toSnakeCase "ServerPort" = "server_port" := by decide
example : toKebabCase "ServerPort" = "server-port" := by decide
example : splitFirstEq "A=b=c" = some ("A", "b=c") := by decide
example : splitFirstEq "Abc" = none := by decide
example : goSplit "1,,3" ',' = ["1", "", "3"] := by decide
example : goSplit "" ',' = [""] := by decide
example : String.mk (replace2 '\\' 'n' '\n' "a\\nb".data) = "a\nb" := by decide
example : ((-129 : Int) % 256) = 127 := by decide

end Enfl
